import Mathlib

/-!
Shallow embedding of the octopus backend (TruStory) pieces under
verification: the mention translator (services/truapi/db/mention.go),
the user data-access layer (db user queries), the notification
dispatcher worker, and the metrics aggregation/CSV-report handlers.
Machine integers are modelled as Int, times as Int timestamps,
fallible calls as Except, Go maps with get-or-zero semantics as total
functions with pointwise update, and Go nil pointers as Option.
-/

/-! ## Mention translation (services/truapi/db/mention.go) -/

namespace MentionDB

/-- TwitterProfile row as used by the mention translator. -/
structure TwitterProfile where
  address : String
  username : String
deriving Repr, DecidableEq

/-- First loop of replaceUsernamesWithAddress: builds the
addressByUsername map (as an association list), aborting with the
first lookup error; a nil profile maps the username to itself. -/
def buildAddressByUsername (profileByUsername : String → Except String (Option TwitterProfile)) :
    List String → Except String (List (String × String))
  | [] => .ok []
  | username :: rest =>
    match profileByUsername username with
    | .error e => .error e
    | .ok none =>
      match buildAddressByUsername profileByUsername rest with
      | .error e => .error e
      | .ok m => .ok ((username, username) :: m)
    | .ok (some profile) =>
      match buildAddressByUsername profileByUsername rest with
      | .error e => .error e
      | .ok m => .ok ((username, profile.address) :: m)

/-- replaceUsernamesWithAddress: parses mentions, resolves each to an
address, then replaces every occurrence in the body.  On a lookup
error Go returns the (unchanged) body together with the error, which
we model as the pair (body, some e). -/
def replaceUsernamesWithAddress (profileByUsername : String → Except String (Option TwitterProfile))
    (parseMentions : String → List String) (body : String) : String × Option String :=
  match buildAddressByUsername profileByUsername (parseMentions body) with
  | .error e => (body, some e)
  | .ok addressByUsername =>
    (addressByUsername.foldl (fun b p => b.replace p.1 p.2) body, none)

/-- TranslateToCosmosMentions delegates to replaceUsernamesWithAddress. -/
def TranslateToCosmosMentions (profileByUsername : String → Except String (Option TwitterProfile))
    (parseMentions : String → List String) (body : String) : String × Option String :=
  replaceUsernamesWithAddress profileByUsername parseMentions body

end MentionDB

/-! ## User data access (db user queries) -/

namespace UsersDB

/-- db.User row, with the fields read by the handlers modelled here.
Timestamps appear only pre-formatted as strings in CSV rows, so they
are carried as strings. -/
structure User where
  id : Int
  address : String
  username : String
  email : String
  createdAt : String
  updatedAt : String
  lastAuthenticatedAt : Option String
  userGroup : String
deriving Repr, DecidableEq

/-- Outcome of the underlying go-pg First() call for one query. -/
inductive PgResult (α : Type) where
  | row (a : α)
  | noRows
  | fail (e : String)
deriving Repr, DecidableEq

/-- UserByID: translates pg.ErrNoRows into (nil, nil), any other
error into (nil, err), and a found row into (user, nil). -/
def UserByID (db : Int → PgResult User) (id : Int) : Except String (Option User) :=
  match db id with
  | .row u => .ok (some u)
  | .noRows => .ok none
  | .fail e => .error e

end UsersDB

/-! ## HandleUserBase (user-base CSV report) -/

namespace ReportMetrics

open UsersDB

/-- An HTTP response of a metrics handler: either a rendered error or
the CSV records written (header first). -/
inductive HttpResponse where
  | error (code : Nat) (msg : String)
  | csv (records : List (List String))
deriving Repr, DecidableEq

/-- Header of the user-base report. -/
def userBaseHeader : List String :=
  ["address", "username", "email", "creation_date", "updated_date", "last_login", "user_group"]

/-- One user-base CSV row. -/
def userBaseRow (u : User) : List String :=
  [u.address, u.username, u.email, u.createdAt, u.updatedAt,
   match u.lastAuthenticatedAt with
   | none => ""
   | some t => t,
   u.userGroup]

/-- The user loop of HandleUserBase: users with an empty address are
skipped, every other user contributes one row. -/
def userBaseRows (users : List User) : List (List String) :=
  users.foldl (fun acc u => if u.address = "" then acc else acc ++ [userBaseRow u]) []

/-- HandleUserBase: rejects the request with 401 "Invalid token" when
the configured secret is empty or differs from the Metrics-Secret
header; otherwise writes the header and one row per user (a failing
FindAll renders a 500 before any row is flushed). -/
def handleUserBase (secret headerSecret : String)
    (findAllResult : Except String (List User)) : HttpResponse :=
  if secret = "" ∨ secret ≠ headerSecret then .error 401 "Invalid token"
  else
    match findAllResult with
    | .error e => .error 500 e
    | .ok users => .csv (userBaseHeader :: userBaseRows users)

end ReportMetrics

/-! ## HandleUsersMetrics / HandleClaimMetrics / HandleUserClaims
(claim-era CSV reports) -/

namespace ReportMetrics

/-- staking.StakeType constants (StakeBacking is the Go zero value). -/
inductive StakeType where
  | backing
  | challenge
  | upvote
deriving Repr, DecidableEq

/-- staking.Argument fields read by HandleClaimMetrics. -/
structure SArgument where
  id : Nat
  creator : String
  createdTime : Int
  stakeType : StakeType
deriving Repr, DecidableEq

/-- staking.Stake fields read by HandleClaimMetrics. -/
structure SStake where
  creator : String
  createdTime : Int
  argumentID : Nat
  type : StakeType
  amount : Int
deriving Repr, DecidableEq

/-- Per-claim accumulator of HandleClaimMetrics, with the error
responses rendered so far (render.Error without a return does not
abort the loop). -/
structure ClaimAgg where
  totalArguments : Int
  agreesGiven : Int
  totalBacked : Int
  totalBackedAgree : Int
  totalBackedArgument : Int
  totalChallenged : Int
  totalChallengedAgree : Int
  totalChallengedArgument : Int
  lastActivityArgument : Int
  lastActivityAgree : Int
  errors : List String
deriving Repr, DecidableEq

/-- The accumulator at the top of the per-claim loop body. -/
def ClaimAgg.init : ClaimAgg := ⟨0, 0, 0, 0, 0, 0, 0, 0, 0, 0, []⟩

/-- mapArguments: argument id to slice index, inserted for every
argument (before the cutoff check), later duplicates overwriting
earlier ones. -/
def buildMapArguments (arguments : List SArgument) : Nat → Option Nat :=
  arguments.enum.foldl (fun m p => fun aid => if aid = p.2.id then some p.1 else m aid)
    (fun _ => none)

/-- The arguments loop: counts the arguments created before the
cutoff and tracks the latest such creation time. -/
def argumentsPrepass (before : Int) (acc : ClaimAgg) (arguments : List SArgument) : ClaimAgg :=
  arguments.foldl
    (fun acc a =>
      if ¬ a.createdTime < before then acc
      else
        let acc := if acc.lastActivityArgument < a.createdTime then
            { acc with lastActivityArgument := a.createdTime } else acc
        { acc with totalArguments := acc.totalArguments + 1 })
    acc

/-- The tail of the stakes-loop body once `a := arguments[i]` is in
hand: the agree-activity update and the backed/challenged
accumulation. -/
def claimStakeAccum (stake : SStake) (a : SArgument) (acc : ClaimAgg) : ClaimAgg :=
  let acc := if stake.type = .upvote ∧ acc.lastActivityAgree < stake.createdTime then
      { acc with lastActivityAgree := stake.createdTime } else acc
  if a.stakeType = .backing ∧ stake.type = .upvote then
      { acc with
        totalBacked := acc.totalBacked + stake.amount
        totalBackedAgree := acc.totalBackedAgree + stake.amount
        agreesGiven := acc.agreesGiven + 1 }
    else if a.stakeType = .challenge ∧ stake.type = .upvote then
      { acc with
        totalChallenged := acc.totalChallenged + stake.amount
        totalChallengedAgree := acc.totalChallengedAgree + stake.amount
        agreesGiven := acc.agreesGiven + 1 }
    else
      let acc := if a.stakeType = .backing then
          { acc with
            totalBacked := acc.totalBacked + stake.amount
            totalBackedArgument := acc.totalBackedArgument + stake.amount } else acc
      if a.stakeType = .challenge then
        { acc with
          totalChallenged := acc.totalChallenged + stake.amount
          totalChallengedArgument := acc.totalChallengedArgument + stake.amount } else acc

/-- One iteration of the stakes loop of HandleClaimMetrics.  When the
stake's argument id is absent from mapArguments, render.Error is
called but the handler does NOT return: the iteration continues with
the Go zero index 0.  arguments[i] is Go slice indexing, so with that
zero index on an empty argument slice it panics (index out of range)
and the request aborts — modelled as none. -/
def claimStakeStep (before : Int) (arguments : List SArgument) (acc : ClaimAgg)
    (stake : SStake) : Option ClaimAgg :=
  if ¬ stake.createdTime < before then some acc
  else
    let found := buildMapArguments arguments stake.argumentID
    let acc :=
      match found with
      | none => { acc with errors := acc.errors
          ++ ["unable to find argument with id " ++ toString stake.argumentID] }
      | some _ => acc
    match arguments[found.getD 0]? with
    | none => none
    | some a => some (claimStakeAccum stake a acc)

/-- The stakes loop of HandleClaimMetrics for one claim; none when an
iteration hit the index-out-of-range panic. -/
def processClaimStakes (before : Int) (arguments : List SArgument) (acc : ClaimAgg) :
    List SStake → Option ClaimAgg
  | [] => some acc
  | stake :: rest =>
    match claimStakeStep before arguments acc stake with
    | none => none
    | some acc2 => processClaimStakes before arguments acc2 rest

/-- UserCommunityMetrics counters (coins carried as Int amounts). -/
structure UserCommunityMetrics where
  claims : Int
  arguments : Int
  agreesGiven : Int
  agreesReceived : Int
  staked : Int
  stakedArgument : Int
  stakedAgree : Int
  interestArgumentCreated : Int
  interestAgreeReceived : Int
  interestAgreeGiven : Int
  curatorReward : Int
  interestSlashed : Int
  stakeSlashed : Int
  claimsOpened : Int
  uniqueClaimsOpened : Int
  argumentsOpened : Int
  uniqueArgumentsOpened : Int
  replies : Int
  earnedCoin : Int
  pendingStake : Int
deriving Repr, DecidableEq

/-- Header of the users-metrics report. -/
def usersMetricsHeader : List String :=
  ["job_date_time", "date", "address", "username", "balance",
   "community", "community_name", "stake_earned",
   "claims_created", "claims_opened", "unique_claims_opened",
   "arguments_created", "agrees_received", "agrees_given",
   "staked", "staked_arguments", "staked_agrees",
   "interest_argument_creation", "interest_agree_received", "interest_agree_given", "reward_not_helpful",
   "interest_slashed", "stake_slashed", "pending_stake",
   "replies",
   "arguments_opened", "unique_arguments_opened"]

/-- rowStart of a users-metrics row. -/
def usersMetricsRowStart (jobTime date address username balance : String) : List String :=
  [jobTime, date, address, username, balance]

/-- One users-metrics row, appended field by field as in the Go
handler. -/
def usersMetricsRow (jobTime date address username balance communityID communityName : String)
    (m : UserCommunityMetrics) : List String :=
  usersMetricsRowStart jobTime date address username balance ++
  [communityID, communityName,
   toString m.earnedCoin,
   toString m.claims, toString m.claimsOpened, toString m.uniqueClaimsOpened,
   toString m.arguments, toString m.agreesReceived, toString m.agreesGiven,
   toString m.staked, toString m.stakedArgument, toString m.stakedAgree,
   toString m.interestArgumentCreated, toString m.interestAgreeReceived,
   toString m.interestAgreeGiven, toString m.curatorReward,
   toString m.interestSlashed, toString m.stakeSlashed, toString m.pendingStake,
   toString m.replies,
   toString m.argumentsOpened, toString m.uniqueArgumentsOpened]

/-- Header of the claim-metrics report. -/
def claimMetricsHeader : List String :=
  ["job_date_time", "date", "created_date", "flagged", "id", "community_id", "claim_name",
   "arguments_created", "agrees_given",
   "staked",
   "staked_backed", "staked_argument_backed", "staked_agree_backed",
   "staked_challenged", "staked_argument_challenged", "staked_agree_challenged",
   "user_views", "unique_user_views", "anon_views", "unique_anon_views",
   "user_arguments_views", "unique_user_arguments_views", "anon_arguments_views", "unique_anon_arguments_views",
   "replies",
   "last_activiy_argument",
   "last_activity_agree"]

/-- db.ClaimViewsStats fields rendered into a claim-metrics row. -/
structure ClaimViewsStats where
  userViews : Int
  uniqueUserViews : Int
  anonViews : Int
  uniqueAnonViews : Int
  userArgumentsViews : Int
  uniqueUserArgumentsViews : Int
  anonArgumentsViews : Int
  uniqueAnonArgumentsViews : Int
deriving Repr, DecidableEq

/-- One claim-metrics row; last-activity times render as "" when
still the zero time. -/
def claimMetricsRow (formatTime : Int → String) (jobTime date createdDate : String)
    (flagged : Int) (claimID : Nat) (communityID body : String) (agg : ClaimAgg)
    (views : ClaimViewsStats) (replies : Int) : List String :=
  [jobTime, date, createdDate, toString flagged, toString claimID, communityID, body,
   toString agg.totalArguments, toString agg.agreesGiven,
   toString (agg.totalBacked + agg.totalChallenged),
   toString agg.totalBacked, toString agg.totalBackedArgument, toString agg.totalBackedAgree,
   toString agg.totalChallenged, toString agg.totalChallengedArgument, toString agg.totalChallengedAgree,
   toString views.userViews, toString views.uniqueUserViews,
   toString views.anonViews, toString views.uniqueAnonViews,
   toString views.userArgumentsViews, toString views.uniqueUserArgumentsViews,
   toString views.anonArgumentsViews, toString views.uniqueAnonArgumentsViews,
   toString replies,
   if agg.lastActivityArgument = 0 then "" else formatTime agg.lastActivityArgument,
   if agg.lastActivityAgree = 0 then "" else formatTime agg.lastActivityAgree]

/-- Header of the user-claims report. -/
def userClaimsHeader : List String :=
  ["job_date_time", "date", "claim_id", "claim", "community", "address", "creation_date", "participants"]

/-- One user-claims row. -/
def userClaimsRow (jobTime date : String) (claimID : Nat) (body communityID creator createdDate : String)
    (participants : Int) : List String :=
  [jobTime, date, toString claimID, body, communityID, creator, createdDate,
   toString participants]

end ReportMetrics

/-! ## HandleMetrics reward net calculation (handle_metrics.go) -/

namespace StoriesMetrics

/-- storyRewardResult: the per-story reward/returned-stake pair
collected from the transaction loop (Go pointers as Option). -/
structure StoryRewardResult where
  categoryID : Int
  reward : Option Int
  stakeReturned : Option Int
deriving Repr, DecidableEq

/-- One iteration of the userStoryResults loop: the amount passed to
addStakeEarned, or none when the iteration continues without adding
(no reward, no originating stake in the side map, zero net, or the
negative-net safety check). -/
def netStakeEarnedAddition (userStakeByStory : String → Int → Option Int)
    (userAddress : String) (storyID : Int) (r : StoryRewardResult) : Option Int :=
  match r.reward with
  | none => none
  | some reward =>
    match r.stakeReturned with
    | some _ => some reward
    | none =>
      match userStakeByStory userAddress storyID with
      | none => none
      | some stakedAmount =>
        let net := reward - stakedAmount
        if net = 0 then none
        else if net < 0 then none
        else some net

/-- story.Status values distinguished by HandleMetrics. -/
inductive StoryStatus where
  | pending
  | expired
  | other
deriving Repr, DecidableEq

/-- Backing/challenge fields read by the stories pass (Amount,
Creator, StoryID, ArgumentID, Timestamp.CreatedTime). -/
structure StoryStake where
  creator : String
  amount : Int
  createdTime : Int
  argumentID : Int
  storyID : Int
deriving Repr, DecidableEq

/-- story.Story fields read by the stories pass. -/
structure Story where
  id : Int
  creator : String
  categoryID : Int
  createdTime : Int
  status : StoryStatus
deriving Repr, DecidableEq

/-- Argument as returned by argumentResolver (ID zero means not
found). -/
structure StoryArgument where
  id : Int
  creator : String
deriving Repr, DecidableEq

/-- The chain resolvers the stories pass queries per story. -/
structure ChainEnv where
  backingsOf : Int → List StoryStake
  challengesOf : Int → List StoryStake
  argumentOf : Int → StoryArgument

/-- The Metrics counters touched by the stories pass (coins as Int
amounts; the remaining Go fields are only written by the later
transaction pass). -/
structure Metrics where
  totalClaims : Int
  totalArguments : Int
  totalEndorsementsGiven : Int
  totalBackings : Int
  totalChallenges : Int
  totalAmountStaked : Int
  totalAmountBacked : Int
  totalAmountChallenged : Int
  totalAmountAtStake : Int
  stakeLost : Int
deriving Repr, DecidableEq

/-- The zero counters a fresh (user, category) entry starts from. -/
def Metrics.zero : Metrics := ⟨0, 0, 0, 0, 0, 0, 0, 0, 0, 0⟩

/-- The state of the pass: the per-(user, category) counters (the Go
get-or-create-zero nested maps, as a total function) and the
mapUserStakeByStoryID side map keyed by (user, story id). -/
structure MState where
  summary : String → Int → Metrics
  userStakeByStory : String → Int → Option Int

/-- The state before the stories loop. -/
def initState : MState := ⟨fun _ _ => Metrics.zero, fun _ _ => none⟩

/-- One GetUserMetrics / getMetricsByCategory update of the summary
map at a (user, category) key. -/
def updateSummary (st : MState) (user : String) (cat : Int) (f : Metrics → Metrics) : MState :=
  { st with summary := fun u c =>
      if u = user ∧ c = cat then f (st.summary u c) else st.summary u c }

/-- mapUserStakeByStoryID[key(user, storyID)] = amount. -/
def setUserStake (st : MState) (user : String) (storyID amount : Int) : MState :=
  { st with userStakeByStory := fun u s =>
      if u = user ∧ s = storyID then some amount else st.userStakeByStory u s }

/-- The shared body of the backings and the challenges loops of
HandleMetrics (isBacking selects the backed/challenged counters). -/
def processStake (env : ChainEnv) (before : Int) (s : Story) (isBacking : Bool)
    (st : MState) (b : StoryStake) : MState :=
  if ¬ b.createdTime < before then st
  else
    let st := setUserStake st b.creator b.storyID b.amount
    let st := updateSummary st b.creator s.categoryID
      (fun m => { m with totalAmountStaked := m.totalAmountStaked + b.amount })
    let st := if isBacking then
        updateSummary st b.creator s.categoryID
          (fun m => { m with totalAmountBacked := m.totalAmountBacked + b.amount })
      else
        updateSummary st b.creator s.categoryID
          (fun m => { m with totalAmountChallenged := m.totalAmountChallenged + b.amount })
    let st := if isBacking then
        updateSummary st b.creator s.categoryID
          (fun m => { m with totalBackings := m.totalBackings + 1 })
      else
        updateSummary st b.creator s.categoryID
          (fun m => { m with totalChallenges := m.totalChallenges + 1 })
    let st := if s.status = .pending then
        updateSummary st b.creator s.categoryID
          (fun m => { m with totalAmountAtStake := m.totalAmountAtStake + b.amount })
      else st
    let arg := env.argumentOf b.argumentID
    if arg.id = 0 then st
    else if arg.creator = b.creator then
      updateSummary st b.creator s.categoryID
        (fun m => { m with totalArguments := m.totalArguments + 1 })
    else
      updateSummary st b.creator s.categoryID
        (fun m => { m with totalEndorsementsGiven := m.totalEndorsementsGiven + 1 })

/-- backingAmount / challengeAmount: the in-loop sum over the stakes
created before the cutoff. -/
def stakeSumBefore (before : Int) (stakes : List StoryStake) : Int :=
  stakes.foldl (fun a b => if b.createdTime < before then a + b.amount else a) 0

/-- The losing side's stake-lost loop (Go applies no cutoff filter
here). -/
def addStakeLostAll (cat : Int) (st : MState) (stakes : List StoryStake) : MState :=
  stakes.foldl
    (fun st2 b => updateSummary st2 b.creator cat
      (fun m => { m with stakeLost := m.stakeLost + b.amount }))
    st

/-- The body of the stories loop of HandleMetrics. -/
def processStory (env : ChainEnv) (before : Int) (st : MState) (s : Story) : MState :=
  if ¬ s.createdTime < before then st
  else
    let st := updateSummary st s.creator s.categoryID
      (fun m => { m with totalClaims := m.totalClaims + 1 })
    let backings := env.backingsOf s.id
    let st := backings.foldl (processStake env before s true) st
    let challenges := env.challengesOf s.id
    let st := challenges.foldl (processStake env before s false) st
    if s.status = .pending then st
    else
      let backingAmount := stakeSumBefore before backings
      let challengeAmount := stakeSumBefore before challenges
      let st := if backingAmount < challengeAmount then
          addStakeLostAll s.categoryID st backings else st
      if challengeAmount < backingAmount then
        addStakeLostAll s.categoryID st challenges else st

/-- The whole stories loop of HandleMetrics. -/
def storiesPass (env : ChainEnv) (before : Int) (stories : List Story) : MState :=
  stories.foldl (processStory env before) initState

/-- Spec-side sum: the amounts of the stakes by a given user created
strictly before the cutoff, within one stake list. -/
def userStakesSumIn (before : Int) (user : String) (stakes : List StoryStake) : Int :=
  (stakes.map (fun b =>
    if user = b.creator ∧ b.createdTime < before then b.amount else 0)).sum

/-- Spec-side sum of claim C1: over the stories of the category, the
backing and challenge stake amounts by the user created strictly
before the cutoff. -/
def totalStakedSpec (env : ChainEnv) (before : Int) (user : String) (cat : Int)
    (stories : List Story) : Int :=
  (stories.map (fun s => if s.categoryID = cat then
    userStakesSumIn before user (env.backingsOf s.id ++ env.challengesOf s.id) else 0)).sum

end StoriesMetrics

/-! ## Reward notification worker (pushd processRewardsNotifications) -/

namespace Notifications

open UsersDB

/-- app.RewardType constants. -/
inductive RewardType where
  | invite
  | tru
  | unknown
deriving Repr, DecidableEq

/-- app.RewardCauserAction constants. -/
inductive RewardCauserAction where
  | signedUp
  | oneArgument
  | receiveFiveAgrees
  | other
deriving Repr, DecidableEq

/-- app.RewardNotificationRequest, with the fields the worker reads. -/
structure RewardNotificationRequest where
  rewardeeID : Int
  causerID : Int
  rewardType : RewardType
  rewardAmount : String
  causerAction : RewardCauserAction
deriving Repr, DecidableEq

/-- db.NotificationType constants returned by
getNotificationTypeFromRequest (0 for an unknown reward type). -/
inductive NotificationType where
  | rewardInviteUnlocked
  | rewardTruUnlocked
  | zero
deriving Repr, DecidableEq

/-- The Notification struct sent downstream by the worker. -/
structure Notification where
  toAddress : String
  typeID : Int
  type : NotificationType
  msg : String
  action : String
  trim : Bool
deriving Repr, DecidableEq

/-- Collaborators of the worker: the user table, sdk.ParseCoin (none
models a parse error, some the parsed amount), and db.CoinDisplayName
(defined outside the embedded sources). -/
structure NotifEnv where
  db : Int → PgResult User
  parseCoin : String → Option Int
  coinDisplayName : String

/-- getNotificationTypeFromRequest. -/
def getNotificationTypeFromRequest (n : RewardNotificationRequest) : NotificationType :=
  match n.rewardType with
  | .invite => .rewardInviteUnlocked
  | .tru => .rewardTruUnlocked
  | .unknown => .zero

/-- getRewardStringFromRequest: invites are rendered verbatim, tru
amounts are parsed and scaled down by 10^9 (Go int64 division
truncates toward zero, hence Int.div). -/
def getRewardStringFromRequest (env : NotifEnv) (n : RewardNotificationRequest) : String :=
  match n.rewardType with
  | .invite => n.rewardAmount ++ " invites"
  | .tru =>
    match env.parseCoin n.rewardAmount with
    | none => n.rewardAmount
    | some amount => toString (Int.tdiv amount 1000000000) ++ " " ++ env.coinDisplayName
  | .unknown => ""

/-- getRewardReasonFromRequest.  In the tru branch Go dereferences the
causer pointer unconditionally, so a nil causer is a panic, modelled
as none. -/
def getRewardReasonFromRequest (n : RewardNotificationRequest) (causer : Option User) :
    Option String :=
  match n.rewardType with
  | .invite =>
    let causedBy :=
      match causer with
      | none => "you"
      | some c => c.username
    some (causedBy ++ " became an active user on TruStory.")
  | .tru =>
    match causer with
    | none => none
    | some c =>
      let stepCompleted :=
        match n.causerAction with
        | .signedUp => "signed up"
        | .oneArgument => "has written at least one argument"
        | .receiveFiveAgrees => "has received at least five agrees"
        | .other => ""
      some (c.username ++ " " ++ stepCompleted ++ " on TruStory.")
  | .unknown => some ""

/-- Outcome of the worker body for one request: the item is dropped on
a lookup error, the goroutine dies on a nil-pointer dereference, and
otherwise a notification is emitted. -/
inductive ProcessOutcome where
  | dropped
  | emitted (notif : Notification)
  | crashed
deriving Repr, DecidableEq

/-- One iteration of processRewardsNotifications: look up the
rewardee (error: log and continue), then the causer when CauserID is
non-zero (error: log and continue), then build the notification.
user.Address panics when the rewardee row was absent, and the tru
reason panics on a nil causer. -/
def processOneReward (env : NotifEnv) (n : RewardNotificationRequest) : ProcessOutcome :=
  match UserByID env.db n.rewardeeID with
  | .error _ => .dropped
  | .ok user =>
    match if n.causerID ≠ 0 then UserByID env.db n.causerID else .ok none with
    | .error _ => .dropped
    | .ok causer =>
      match user with
      | none => .crashed
      | some u =>
        match getRewardReasonFromRequest n causer with
        | none => .crashed
        | some reason =>
          .emitted
            { toAddress := u.address
              typeID := 0
              type := getNotificationTypeFromRequest n
              msg := "rewarded with " ++ getRewardStringFromRequest env n
                ++ " because " ++ reason
              action := "Reward unlocked"
              trim := true }

/-- The worker loop over the channel, modelled as a sequential fold
over the received requests; a crash (Go panic) terminates the loop. -/
def processRewardsNotifications (env : NotifEnv) :
    List RewardNotificationRequest → List Notification
  | [] => []
  | n :: rest =>
    match processOneReward env n with
    | .dropped => processRewardsNotifications env rest
    | .emitted notif => notif :: processRewardsNotifications env rest
    | .crashed => []

/-- The causer the worker resolves for a request (none when CauserID
is zero or the row is absent or the lookup errors). -/
def resolvedCauser (env : NotifEnv) (n : RewardNotificationRequest) : Option User :=
  if n.causerID ≠ 0 then
    match UserByID env.db n.causerID with
    | .ok causer => causer
    | .error _ => none
  else none

/-- The per-request emission, used to state order preservation. -/
def emitOf (env : NotifEnv) (n : RewardNotificationRequest) : Option Notification :=
  match processOneReward env n with
  | .emitted notif => some notif
  | _ => none

end Notifications

/-! ## Sample data for witnesses -/

/-- A sample user row. -/
def sampleUserAlice : UsersDB.User := ⟨1, "cosmos1alice", "alice", "", "", "", none, ""⟩

/-- A second sample user row. -/
def sampleUserBob : UsersDB.User := ⟨2, "cosmos1bob", "bob", "", "", "", none, ""⟩

/-- A sample worker environment: ids 1 and 2 resolve, id 3 fails with
a connection error, anything else has no row. -/
def sampleEnv : Notifications.NotifEnv :=
  ⟨fun id => if id = 1 then .row sampleUserAlice
    else if id = 2 then .row sampleUserBob
    else if id = 3 then .fail "connection reset"
    else .noRows,
   fun _ => none, "TRU"⟩

/-- An invite reward request whose rewardee is Alice and causer Bob. -/
def sampleInviteReq : Notifications.RewardNotificationRequest := ⟨1, 2, .invite, "3", .other⟩

/-- The notification the worker emits for sampleInviteReq. -/
def sampleInviteNotif : Notifications.Notification :=
  ⟨"cosmos1alice", 0, .rewardInviteUnlocked,
   "rewarded with 3 invites because bob became an active user on TruStory.",
   "Reward unlocked", true⟩

/-- A reward request whose rewardee lookup fails. -/
def sampleBadReq : Notifications.RewardNotificationRequest := ⟨3, 0, .invite, "1", .other⟩

/-- A sample chain environment: story 1 has one backing by alice and
one challenge by bob; no argument resolves. -/
def sampleChainEnv : StoriesMetrics.ChainEnv :=
  ⟨fun sid => if sid = 1 then [⟨"alice", 10, 5, 0, 1⟩] else [],
   fun sid => if sid = 1 then [⟨"bob", 7, 6, 0, 1⟩] else [],
   fun _ => ⟨0, ""⟩⟩

/-- A sample story in category 3 created before its stakes. -/
def sampleStory : StoriesMetrics.Story := ⟨1, "carol", 3, 2, .expired⟩

/-! # Theorems -/

/-- Claim C5: a reward notification of type invite renders a message
embedding the resolved causer's username, or the word "you" when no
causer was resolved. -/
theorem c5_invite_reason (env : Notifications.NotifEnv)
    (n : Notifications.RewardNotificationRequest) (notif : Notifications.Notification)
    (hinvite : n.rewardType = .invite)
    (hemit : Notifications.processOneReward env n = .emitted notif) :
    notif.msg = "rewarded with " ++ n.rewardAmount ++ " invites because "
      ++ (match Notifications.resolvedCauser env n with
          | some c => c.username
          | none => "you")
      ++ " became an active user on TruStory." := by
  by_cases hcz : n.causerID = 0
  · cases h1 : UsersDB.UserByID env.db n.rewardeeID with
    | error e => simp [Notifications.processOneReward, h1] at hemit
    | ok user =>
      cases user with
      | none => simp [Notifications.processOneReward, h1, hcz] at hemit
      | some u =>
        simp only [Notifications.processOneReward, h1, hcz,
          Notifications.getRewardReasonFromRequest, Notifications.getRewardStringFromRequest,
          hinvite, ne_eq, not_true_eq_false, ite_false, if_false] at hemit
        cases hemit
        simp only [Notifications.resolvedCauser, hcz, String.append_assoc]
        rfl
  · cases h1 : UsersDB.UserByID env.db n.rewardeeID with
    | error e => simp [Notifications.processOneReward, h1] at hemit
    | ok user =>
      cases h2 : UsersDB.UserByID env.db n.causerID with
      | error e => simp [Notifications.processOneReward, h1, h2, hcz] at hemit
      | ok causer =>
        cases user with
        | none => simp [Notifications.processOneReward, h1, h2, hcz] at hemit
        | some u =>
          simp only [Notifications.processOneReward, h1, h2, hcz,
            Notifications.getRewardReasonFromRequest, Notifications.getRewardStringFromRequest,
            hinvite, ne_eq, not_false_eq_true, ite_true, if_true] at hemit
          cases hemit
          cases causer with
          | none =>
            simp only [Notifications.resolvedCauser, hcz, h2, String.append_assoc,
              ne_eq, not_false_eq_true, ite_true, if_true]
            rfl
          | some c =>
            simp only [Notifications.resolvedCauser, hcz, h2, String.append_assoc,
              ne_eq, not_false_eq_true, ite_true, if_true]
            rfl

/-- Witness for C5: at sampleEnv, sampleInviteReq is processed into a
notification whose message names the causer bob. -/
theorem c5_witness :
    Notifications.processOneReward sampleEnv sampleInviteReq = .emitted sampleInviteNotif
    ∧ sampleInviteNotif.msg
        = "rewarded with 3 invites because bob became an active user on TruStory." :=
  ⟨by decide, c5_invite_reason sampleEnv sampleInviteReq sampleInviteNotif rfl (by decide)⟩

/-- Claim C6: a request whose rewardee lookup errors, or whose causer
lookup errors (when a causer id is present), is dropped: the worker
emits nothing for it and processes the remaining requests exactly as
if the item were absent, with no retry and no loop termination. -/
theorem c6_lookup_error_drops (env : Notifications.NotifEnv)
    (n : Notifications.RewardNotificationRequest)
    (rest : List Notifications.RewardNotificationRequest)
    (herr : (∃ e, UsersDB.UserByID env.db n.rewardeeID = .error e)
      ∨ (n.causerID ≠ 0 ∧ ∃ e, UsersDB.UserByID env.db n.causerID = .error e)) :
    Notifications.processRewardsNotifications env (n :: rest)
      = Notifications.processRewardsNotifications env rest := by
  have hdrop : Notifications.processOneReward env n = .dropped := by
    rcases herr with ⟨e, he⟩ | ⟨hcz, e, he⟩
    · simp [Notifications.processOneReward, he]
    · cases h1 : UsersDB.UserByID env.db n.rewardeeID with
      | error e2 => simp [Notifications.processOneReward, h1]
      | ok user => simp [Notifications.processOneReward, h1, hcz, he]
  simp [Notifications.processRewardsNotifications, hdrop]

/-- Witness for C6 at a concrete failing lookup. -/
theorem c6_witness :
    Notifications.processRewardsNotifications sampleEnv [sampleBadReq, sampleInviteReq]
      = Notifications.processRewardsNotifications sampleEnv [sampleInviteReq] :=
  c6_lookup_error_drops sampleEnv sampleBadReq [sampleInviteReq]
    (Or.inl ⟨"connection reset", rfl⟩)

/-- Claim C7: on any request list on which the worker does not crash,
the sequential worker loop emits exactly the per-request emissions in
input order with the dropped items removed, so delivery order within
the category preserves arrival order. -/
theorem c7_order_preserved (env : Notifications.NotifEnv)
    (reqs : List Notifications.RewardNotificationRequest)
    (hnc : ∀ n ∈ reqs, Notifications.processOneReward env n ≠ .crashed) :
    Notifications.processRewardsNotifications env reqs
      = reqs.filterMap (Notifications.emitOf env) := by
  induction reqs with
  | nil => rfl
  | cons n rest ih =>
    have hrest : ∀ m ∈ rest, Notifications.processOneReward env m ≠ .crashed :=
      fun m hm => hnc m (by simp [hm])
    cases h : Notifications.processOneReward env n with
    | dropped =>
      simp [Notifications.processRewardsNotifications, h, List.filterMap_cons,
        Notifications.emitOf, ih hrest]
    | emitted notif =>
      simp [Notifications.processRewardsNotifications, h, List.filterMap_cons,
        Notifications.emitOf, ih hrest]
    | crashed => exact absurd h (hnc n (by simp))

/-- Witness for C7 on a concrete two-request queue (one emission, one
drop). -/
theorem c7_witness :
    Notifications.processRewardsNotifications sampleEnv [sampleInviteReq, sampleBadReq]
      = [sampleInviteReq, sampleBadReq].filterMap (Notifications.emitOf sampleEnv) :=
  c7_order_preserved sampleEnv [sampleInviteReq, sampleBadReq] (by decide)

/-- Claim C8: when parseMentions finds no mentions in the input,
TranslateToCosmosMentions returns the input body unchanged with a nil
error. -/
theorem c8_translate_identity_on_mention_free
    (profileByUsername : String → Except String (Option MentionDB.TwitterProfile))
    (parseMentions : String → List String) (body : String)
    (h : parseMentions body = []) :
    MentionDB.TranslateToCosmosMentions profileByUsername parseMentions body = (body, none) := by
  simp [MentionDB.TranslateToCosmosMentions, MentionDB.replaceUsernamesWithAddress, h,
    MentionDB.buildAddressByUsername]

/-- Witness for C8 at a concrete mention-free input. -/
theorem c8_witness :
    (fun _ : String => ([] : List String)) "no mentions here" = [] ∧
      MentionDB.TranslateToCosmosMentions (fun _ => .ok none)
        (fun _ => []) "no mentions here" = ("no mentions here", none) :=
  ⟨rfl, c8_translate_identity_on_mention_free (fun _ => .ok none) (fun _ => [])
    "no mentions here" rfl⟩

/-- Claim C9: UserByID returns (nil, nil) exactly when the query hits
no rows, an error exactly when the query fails for another reason, and
the user row otherwise — so an error-only caller can see a nil user
with a nil error. -/
theorem c9_UserByID_nil_nil
    (db : Int → UsersDB.PgResult UsersDB.User) (id : Int) :
    (UsersDB.UserByID db id = .ok none ↔ db id = .noRows)
    ∧ (∀ e, UsersDB.UserByID db id = .error e ↔ db id = .fail e)
    ∧ (∀ u, UsersDB.UserByID db id = .ok (some u) ↔ db id = .row u) := by
  refine ⟨?_, fun e => ?_, fun u => ?_⟩ <;> cases h : db id <;> simp [UsersDB.UserByID, h]

/-- Claim C10: HandleUserBase answers 401 "Invalid token" exactly when
the configured secret is empty or differs from the Metrics-Secret
header; a CSV body is produced only when a non-empty secret matches,
and then it is the header followed by the user rows. -/
theorem c10_handleUserBase_auth (secret headerSecret : String)
    (findAllResult : Except String (List UsersDB.User)) :
    (ReportMetrics.handleUserBase secret headerSecret findAllResult
        = .error 401 "Invalid token" ↔ (secret = "" ∨ secret ≠ headerSecret))
    ∧ (∀ rows, ReportMetrics.handleUserBase secret headerSecret findAllResult
        = .csv rows → (secret ≠ "" ∧ secret = headerSecret))
    ∧ (∀ users, secret ≠ "" → secret = headerSecret → findAllResult = .ok users →
        ReportMetrics.handleUserBase secret headerSecret findAllResult
          = .csv (ReportMetrics.userBaseHeader :: ReportMetrics.userBaseRows users)) := by
  unfold ReportMetrics.handleUserBase
  by_cases hbad : secret = "" ∨ secret ≠ headerSecret
  · rw [if_pos hbad]
    refine ⟨iff_of_true rfl hbad, fun rows hrows => ?_, fun users hne heq => ?_⟩
    · exact absurd hrows (by simp)
    · exact (hbad.elim (fun h => hne h) (fun h => h heq)).elim
  · rw [if_neg hbad]
    have hb : secret ≠ "" ∧ secret = headerSecret := by
      push_neg at hbad
      exact hbad
    refine ⟨?_, fun rows _ => hb, fun users hne heq hok => by rw [hok]⟩
    cases findAllResult with
    | error e =>
      refine iff_of_false (fun h => ?_) hbad
      injection h with h1 h2
      exact absurd h1 (by decide)
    | ok users => exact iff_of_false (by simp) hbad

/-- Witness for C10: a matching non-empty secret produces the CSV, an
empty secret is rejected. -/
theorem c10_witness :
    ReportMetrics.handleUserBase "s3cret" "s3cret"
        (.ok [⟨1, "addr1", "alice", "a@b.c", "2019-01-01", "2019-01-02", none, "user"⟩])
      = .csv (ReportMetrics.userBaseHeader ::
          ReportMetrics.userBaseRows [⟨1, "addr1", "alice", "a@b.c", "2019-01-01", "2019-01-02", none, "user"⟩]) :=
  (c10_handleUserBase_auth "s3cret" "s3cret"
      (.ok [⟨1, "addr1", "alice", "a@b.c", "2019-01-01", "2019-01-02", none, "user"⟩])).2.2
    [⟨1, "addr1", "alice", "a@b.c", "2019-01-01", "2019-01-02", none, "user"⟩]
    (by decide) rfl rfl

/-- Claim C2: in the net-reward path of the userStoryResults loop (no
separate stake-returned transaction), any amount passed to
addStakeEarned is non-negative: zero and negative nets are skipped. -/
theorem c2_net_reward_nonneg (userStakeByStory : String → Int → Option Int)
    (userAddress : String) (storyID : Int) (r : StoriesMetrics.StoryRewardResult) (a : Int)
    (hret : r.stakeReturned = none)
    (hsome : StoriesMetrics.netStakeEarnedAddition userStakeByStory userAddress storyID r
      = some a) :
    0 ≤ a := by
  unfold StoriesMetrics.netStakeEarnedAddition at hsome
  cases hrw : r.reward with
  | none => rw [hrw] at hsome; cases hsome
  | some reward =>
    rw [hrw, hret] at hsome
    cases hl : userStakeByStory userAddress storyID with
    | none => rw [hl] at hsome; cases hsome
    | some stakedAmount =>
      rw [hl] at hsome
      by_cases h0 : reward - stakedAmount = 0
      · simp [h0] at hsome
      · by_cases hneg : reward - stakedAmount < 0
        · simp [h0, hneg] at hsome
        · simp only [h0, hneg, if_false, ite_false, Option.some.injEq] at hsome
          omega

/-- Witness for C2: a concrete reward of 100 against a stake of 30
adds the non-negative net 70. -/
theorem c2_witness :
    StoriesMetrics.netStakeEarnedAddition (fun _ _ => some 30) "cosmos1alice" 5
        ⟨2, some 100, none⟩ = some 70
    ∧ (0 : Int) ≤ 70 :=
  ⟨rfl, c2_net_reward_nonneg (fun _ _ => some 30) "cosmos1alice" 5 ⟨2, some 100, none⟩ 70
    rfl rfl⟩

/-- Claim C3: in each CSV report handler, every data row has exactly
as many fields as the header written by that handler. -/
theorem c3_csv_row_header_lengths :
    (∀ jobTime date address username balance communityID communityName m,
      (ReportMetrics.usersMetricsRow jobTime date address username balance
          communityID communityName m).length
        = ReportMetrics.usersMetricsHeader.length)
    ∧ (∀ formatTime jobTime date createdDate flagged claimID communityID body agg views replies,
      (ReportMetrics.claimMetricsRow formatTime jobTime date createdDate flagged claimID
          communityID body agg views replies).length
        = ReportMetrics.claimMetricsHeader.length)
    ∧ (∀ jobTime date claimID body communityID creator createdDate participants,
      (ReportMetrics.userClaimsRow jobTime date claimID body communityID creator
          createdDate participants).length
        = ReportMetrics.userClaimsHeader.length)
    ∧ (∀ u, (ReportMetrics.userBaseRow u).length = ReportMetrics.userBaseHeader.length) :=
  ⟨fun _ _ _ _ _ _ _ _ => rfl, fun _ _ _ _ _ _ _ _ _ _ _ => rfl,
   fun _ _ _ _ _ _ _ _ => rfl, fun _ => rfl⟩

/-- The accumulation tail of the stakes-loop body never touches the
rendered errors. -/
theorem ReportMetrics.claimStakeAccum_errors (stake : ReportMetrics.SStake)
    (a : ReportMetrics.SArgument) (acc : ReportMetrics.ClaimAgg) :
    (ReportMetrics.claimStakeAccum stake a acc).errors = acc.errors := by
  unfold ReportMetrics.claimStakeAccum
  split_ifs <;> rfl

/-- Counterexample to claim C4: in HandleClaimMetrics a stake whose
argument is missing renders an error but does NOT abort the request
(the argument slice being non-empty): the stake itself and the
following stake are still accumulated, so further accumulated output
is produced after the error. -/
theorem c4_counterexample :
    (ReportMetrics.processClaimStakes 100 [⟨7, "alice", 1, .backing⟩]
        ReportMetrics.ClaimAgg.init
        [⟨"bob", 2, 99, .upvote, 50⟩, ⟨"carol", 3, 7, .upvote, 100⟩]).map
          ReportMetrics.ClaimAgg.errors
      = some ["unable to find argument with id 99"]
    ∧ (ReportMetrics.processClaimStakes 100 [⟨7, "alice", 1, .backing⟩]
        ReportMetrics.ClaimAgg.init
        [⟨"bob", 2, 99, .upvote, 50⟩, ⟨"carol", 3, 7, .upvote, 100⟩]).map
          ReportMetrics.ClaimAgg.totalBacked = some 150
    ∧ ReportMetrics.processClaimStakes 100 [⟨7, "alice", 1, .backing⟩]
        ReportMetrics.ClaimAgg.init
        [⟨"bob", 2, 99, .upvote, 50⟩, ⟨"carol", 3, 7, .upvote, 100⟩]
      ≠ ReportMetrics.processClaimStakes 100 [⟨7, "alice", 1, .backing⟩]
          ReportMetrics.ClaimAgg.init
          [⟨"bob", 2, 99, .upvote, 50⟩] := by
  refine ⟨by decide, by decide, by decide⟩

/-- Claim C4 as amended: when a stake's argument id is absent from
mapArguments (and the stake is before the cutoff), HandleClaimMetrics
renders an "unable to find argument" error and, whenever the claim
has at least one argument, does not abort: the stake is processed
against the argument at slice index 0 and the loop keeps folding over
the remaining stakes.  Only with an empty argument slice does the
request abort, and then by an index-out-of-range panic, not by the
rendered error. -/
theorem c4_amended_error_continues (before : Int)
    (arguments : List ReportMetrics.SArgument) (acc : ReportMetrics.ClaimAgg)
    (stake : ReportMetrics.SStake) (rest : List ReportMetrics.SStake)
    (hdate : stake.createdTime < before)
    (hmissing : ReportMetrics.buildMapArguments arguments stake.argumentID = none) :
    (arguments = [] →
      ReportMetrics.claimStakeStep before arguments acc stake = none)
    ∧ (arguments ≠ [] → ∃ acc2,
        ReportMetrics.claimStakeStep before arguments acc stake = some acc2
        ∧ acc2.errors = acc.errors
            ++ ["unable to find argument with id " ++ toString stake.argumentID]
        ∧ ReportMetrics.processClaimStakes before arguments acc (stake :: rest)
          = ReportMetrics.processClaimStakes before arguments acc2 rest) := by
  constructor
  · intro hnil
    subst hnil
    simp [ReportMetrics.claimStakeStep, ReportMetrics.buildMapArguments, hdate]
  · intro hne
    obtain ⟨a, tl, rfl⟩ := List.exists_cons_of_ne_nil hne
    have hstep : ReportMetrics.claimStakeStep before (a :: tl) acc stake
        = some (ReportMetrics.claimStakeAccum stake a
            { acc with errors := acc.errors
                ++ ["unable to find argument with id " ++ toString stake.argumentID] }) := by
      simp [ReportMetrics.claimStakeStep, hdate, hmissing]
    refine ⟨_, hstep, ?_, ?_⟩
    · rw [ReportMetrics.claimStakeAccum_errors]
    · simp [ReportMetrics.processClaimStakes, hstep]

/-- Witness for the amended C4: the bad stake continues (with the
error recorded) on a non-empty argument slice, and panics the request
on an empty one. -/
theorem c4_witness :
    ReportMetrics.claimStakeStep 100 [] ReportMetrics.ClaimAgg.init
        ⟨"bob", 2, 99, .upvote, 50⟩ = none
    ∧ (∃ acc2,
        ReportMetrics.claimStakeStep 100 [⟨7, "alice", 1, .backing⟩]
          ReportMetrics.ClaimAgg.init ⟨"bob", 2, 99, .upvote, 50⟩ = some acc2
        ∧ acc2.errors = ["unable to find argument with id 99"]
        ∧ ReportMetrics.processClaimStakes 100 [⟨7, "alice", 1, .backing⟩]
            ReportMetrics.ClaimAgg.init
            [⟨"bob", 2, 99, .upvote, 50⟩, ⟨"carol", 3, 7, .upvote, 100⟩]
          = ReportMetrics.processClaimStakes 100 [⟨7, "alice", 1, .backing⟩] acc2
              [⟨"carol", 3, 7, .upvote, 100⟩]) :=
  ⟨(c4_amended_error_continues 100 [] ReportMetrics.ClaimAgg.init
      ⟨"bob", 2, 99, .upvote, 50⟩ [] (by decide) rfl).1 rfl,
   (c4_amended_error_continues 100 [⟨7, "alice", 1, .backing⟩] ReportMetrics.ClaimAgg.init
      ⟨"bob", 2, 99, .upvote, 50⟩ [⟨"carol", 3, 7, .upvote, 100⟩] (by decide)
      (by decide)).2 (by decide)⟩

namespace StoriesMetrics

/-- Reading the summary after an updateSummary call. -/
theorem updateSummary_summary (st : MState) (a : String) (b : Int) (f : Metrics → Metrics)
    (u : String) (c : Int) :
    (updateSummary st a b f).summary u c
      = if u = a ∧ c = b then f (st.summary u c) else st.summary u c := rfl

/-- The side-map write leaves the summary untouched. -/
theorem setUserStake_summary (st : MState) (a : String) (sid amt : Int)
    (u : String) (c : Int) :
    (setUserStake st a sid amt).summary u c = st.summary u c := rfl

/-- Effect of one backing/challenge iteration on TotalAmountStaked:
it grows by the stake amount exactly at the stake creator's entry for
the story's category, when the stake is before the cutoff. -/
theorem processStake_staked (env : ChainEnv) (before : Int) (s : Story) (isB : Bool)
    (st : MState) (b : StoryStake) (u : String) (c : Int) :
    ((processStake env before s isB st b).summary u c).totalAmountStaked
      = ((st.summary u c).totalAmountStaked)
        + (if u = b.creator ∧ b.createdTime < before ∧ c = s.categoryID then b.amount else 0) := by
  by_cases hd : b.createdTime < before
  · simp only [processStake, hd, not_true_eq_false, if_false, ite_false, true_and]
    split_ifs <;>
      simp_all [updateSummary_summary, setUserStake_summary] <;>
      split_ifs <;> simp_all
  · simp [processStake, hd]

/-- Effect of a whole backings/challenges loop on TotalAmountStaked. -/
theorem foldl_processStake_staked (env : ChainEnv) (before : Int) (s : Story) (isB : Bool)
    (u : String) (c : Int) (stakes : List StoryStake) :
    ∀ st : MState,
    ((stakes.foldl (processStake env before s isB) st).summary u c).totalAmountStaked
      = ((st.summary u c).totalAmountStaked)
        + (stakes.map (fun b =>
            if u = b.creator ∧ b.createdTime < before ∧ c = s.categoryID then b.amount
            else 0)).sum := by
  induction stakes with
  | nil => intro st; simp
  | cons b rest ih =>
    intro st
    rw [List.foldl_cons, ih, processStake_staked]
    simp [List.map_cons, List.sum_cons]
    omega

/-- The stake-lost loop does not change TotalAmountStaked. -/
theorem addStakeLostAll_staked (cat : Int) (u : String) (c : Int)
    (stakes : List StoryStake) :
    ∀ st : MState,
    ((addStakeLostAll cat st stakes).summary u c).totalAmountStaked
      = ((st.summary u c).totalAmountStaked) := by
  induction stakes with
  | nil => intro st; rfl
  | cons b rest ih =>
    intro st
    have hstep : addStakeLostAll cat st (b :: rest)
        = addStakeLostAll cat
            (updateSummary st b.creator cat
              (fun m => { m with stakeLost := m.stakeLost + b.amount })) rest := rfl
    rw [hstep, ih, updateSummary_summary]
    split_ifs <;> rfl

/-- Effect of one story iteration on TotalAmountStaked. -/
theorem processStory_staked (env : ChainEnv) (before : Int) (st : MState) (s : Story)
    (u : String) (c : Int) :
    ((processStory env before st s).summary u c).totalAmountStaked
      = ((st.summary u c).totalAmountStaked)
        + (if s.createdTime < before then
            ((env.backingsOf s.id ++ env.challengesOf s.id).map (fun b =>
              if u = b.creator ∧ b.createdTime < before ∧ c = s.categoryID then b.amount
              else 0)).sum
          else 0) := by
  by_cases hd : s.createdTime < before
  · simp only [processStory, hd, not_true_eq_false, if_false, ite_false, if_true]
    split_ifs <;>
      simp only [addStakeLostAll_staked, foldl_processStake_staked, updateSummary_summary,
        List.map_append, List.sum_append] <;>
      (try split_ifs) <;> (try simp) <;> omega
  · simp [processStory, hd]

/-- Splitting the per-stake contribution by whether the story's
category is the observed one. -/
theorem stakeDelta_eq (before : Int) (user : String) (cat catID : Int)
    (stakes : List StoryStake) :
    (stakes.map (fun b =>
        if user = b.creator ∧ b.createdTime < before ∧ cat = catID then b.amount else 0)).sum
      = if catID = cat then userStakesSumIn before user stakes else 0 := by
  by_cases hC : catID = cat
  · subst hC
    simp [userStakesSumIn]
  · rw [if_neg hC]
    induction stakes with
    | nil => simp
    | cons b rest ih =>
      simp only [List.map_cons, List.sum_cons, ih]
      have hcond : ¬ (user = b.creator ∧ b.createdTime < before ∧ cat = catID) := by
        rintro ⟨-, -, h⟩
        exact hC h.symm
      rw [if_neg hcond, zero_add]

/-- A stake list whose members are all at or after the cutoff
contributes nothing to the spec-side sum. -/
theorem userStakesSumIn_zero (before : Int) (user : String) (stakes : List StoryStake)
    (h : ∀ b ∈ stakes, ¬ b.createdTime < before) :
    userStakesSumIn before user stakes = 0 := by
  refine List.sum_eq_zero ?_
  intro x hx
  simp only [List.mem_map] at hx
  obtain ⟨b, hb, rfl⟩ := hx
  rw [if_neg]
  rintro ⟨-, hdate⟩
  exact h b hb hdate

end StoriesMetrics

/-- Claim C1: after the stories pass of HandleMetrics, every user's
TotalAmountStaked in every category equals the sum of the amounts of
the backing and challenge stakes by that user in that category
created strictly before the cutoff date (stakes at or after the
cutoff contribute nothing).  The hypothesis records that a stake is
never created before its story. -/
theorem c1_totalAmountStaked_eq_sum (env : StoriesMetrics.ChainEnv) (before : Int)
    (stories : List StoriesMetrics.Story) (user : String) (cat : Int)
    (hcr : ∀ s ∈ stories, ∀ b ∈ env.backingsOf s.id ++ env.challengesOf s.id,
      s.createdTime ≤ b.createdTime) :
    ((StoriesMetrics.storiesPass env before stories).summary user cat).totalAmountStaked
      = StoriesMetrics.totalStakedSpec env before user cat stories := by
  suffices h : ∀ (ss : List StoriesMetrics.Story) (st : StoriesMetrics.MState),
      (∀ s ∈ ss, ∀ b ∈ env.backingsOf s.id ++ env.challengesOf s.id,
        s.createdTime ≤ b.createdTime) →
      ((ss.foldl (StoriesMetrics.processStory env before) st).summary user cat).totalAmountStaked
        = ((st.summary user cat).totalAmountStaked)
          + StoriesMetrics.totalStakedSpec env before user cat ss by
    have h2 := h stories StoriesMetrics.initState hcr
    rw [StoriesMetrics.storiesPass, h2]
    simp [StoriesMetrics.initState, StoriesMetrics.Metrics.zero]
  intro ss
  induction ss with
  | nil =>
    intro st h0
    simp [StoriesMetrics.totalStakedSpec]
  | cons s rest ih =>
    intro st hs
    rw [List.foldl_cons, ih _ (fun s2 h2 b hb => hs s2 (List.mem_cons_of_mem _ h2) b hb),
      StoriesMetrics.processStory_staked]
    have hstory : (if s.createdTime < before then
          ((env.backingsOf s.id ++ env.challengesOf s.id).map (fun b =>
            if user = b.creator ∧ b.createdTime < before ∧ cat = s.categoryID then b.amount
            else 0)).sum
        else 0)
        = (if s.categoryID = cat then
            StoriesMetrics.userStakesSumIn before user
              (env.backingsOf s.id ++ env.challengesOf s.id) else 0) := by
      by_cases hd : s.createdTime < before
      · rw [if_pos hd, StoriesMetrics.stakeDelta_eq]
      · rw [if_neg hd,
          StoriesMetrics.userStakesSumIn_zero before user _
            (fun b hb hbd => hd (lt_of_le_of_lt (hs s (List.mem_cons_self _ _) b hb) hbd))]
        simp
    rw [hstory]
    simp only [StoriesMetrics.totalStakedSpec, List.map_cons, List.sum_cons]
    omega

/-- Witness for C1 on a concrete story with one backing and one
challenge. -/
theorem c1_witness :
    ((StoriesMetrics.storiesPass sampleChainEnv 100 [sampleStory]).summary "alice" 3).totalAmountStaked
      = StoriesMetrics.totalStakedSpec sampleChainEnv 100 "alice" 3 [sampleStory]
    ∧ StoriesMetrics.totalStakedSpec sampleChainEnv 100 "alice" 3 [sampleStory] = 10 :=
  ⟨c1_totalAmountStaked_eq_sum sampleChainEnv 100 [sampleStory] "alice" 3 (by decide),
   by decide⟩
